import Mathlib

/-!
Verification of the shaku dependency-injection core against its specification.

The development shallowly embeds:
* the `AsyncProvider` derive macro of `shaku_derive/src/macros/async_provider.rs`
  (`create_property_assignment`, `expand_derive_async_provider`) and a trace
  semantics `runBody` for the code it generates;
* the Module / ModuleBuilder / lazy-cell layer, which is specified in the spec
  but whose source files are not part of the given sources; those definitions
  are modelled from the spec and marked as such in their doc comments.
-/

namespace Shaku

/-- The kinds a declared property of a component or provider can have, from
`shaku_derive/src/structures/service.rs` as used by
`create_property_assignment` in `async_provider.rs`. -/
inductive PropertyType where
  | Component : PropertyType
  | Provided : PropertyType
  | Parameter : PropertyType
  | AsyncProvided : PropertyType
deriving DecidableEq, Repr

/-- A declared property of a service, keeping the two fields
`create_property_assignment` reads: its name and its kind. -/
structure Property where
  property_name : String
  property_type : PropertyType
deriving DecidableEq, Repr

/-- The token stream emitted by `create_property_assignment` for one property:
`name: module.resolve()`, `name: module.provide()?`, or
`name: module.async_provide().await?`. -/
inductive PropertyAssignment where
  | resolveCall : String → PropertyAssignment
  | provideCall : String → PropertyAssignment
  | asyncProvideCall : String → PropertyAssignment
deriving DecidableEq, Repr

/-- Embedding of `create_property_assignment` from
`shaku_derive/src/macros/async_provider.rs` (lines 58-76): `Component`
properties become `module.resolve()`, `Provided` become `module.provide()?`,
`AsyncProvided` become `module.async_provide().await?`, and `Parameter`
properties are rejected with the error
"Parameters are not allowed in Providers". -/
def create_property_assignment (p : Property) : Except String PropertyAssignment :=
  match p.property_type with
  | PropertyType.Component => Except.ok (PropertyAssignment.resolveCall p.property_name)
  | PropertyType.Provided => Except.ok (PropertyAssignment.provideCall p.property_name)
  | PropertyType.Parameter => Except.error "Parameters are not allowed in Providers"
  | PropertyType.AsyncProvided =>
      Except.ok (PropertyAssignment.asyncProvideCall p.property_name)

/-- Embedding of the property-assignment collection in
`expand_derive_async_provider` (lines 17-21): the properties are mapped in
declaration order through `create_property_assignment` and collected into a
`Result`, stopping at the first error, exactly as
`collect::<Result<_, _>>()` does. The rest of the macro (trait bounds from
`create_dependency`, the surrounding `impl` tokens) does not affect which
assignments appear or in which order. -/
def expand_derive_async_provider :
    List Property → Except String (List PropertyAssignment)
  | [] => Except.ok []
  | p :: rest =>
      match create_property_assignment p with
      | Except.error e => Except.error e
      | Except.ok a =>
          match expand_derive_async_provider rest with
          | Except.error e => Except.error e
          | Except.ok as1 => Except.ok (a :: as1)

/-- Runtime service values: either a primitive instance identity or a provider
instance built from named fields (possibly themselves service values). -/
inductive SVal where
  | prim : Nat → SVal
  | inst : List (String × SVal) → SVal

/-- What the module makes available to a generated provider body:
`resolve` is total (it has no error path in its type), while `provide` and
`async_provide` return `Result`s, mirroring `HasProvider::provide` and
`HasAsyncProvider::async_provide` in `shaku/src/provider.rs`. -/
structure ModuleEnv where
  resolveVal : String → SVal
  provideVal : String → Except String SVal
  asyncProvideVal : String → Except String SVal

/-- One observable step of a generated provider body: a dependency access,
recorded in the order the body performs it. -/
inductive Event where
  | resolved : String → SVal → Event
  | provided : String → Except String SVal → Event
  | asyncProvided : String → Except String SVal → Event

/-- The name of the property an assignment initializes. -/
def paName : PropertyAssignment → String
  | PropertyAssignment.resolveCall n => n
  | PropertyAssignment.provideCall n => n
  | PropertyAssignment.asyncProvideCall n => n

/-- The name of the property an event belongs to. -/
def eventName : Event → String
  | Event.resolved n _ => n
  | Event.provided n _ => n
  | Event.asyncProvided n _ => n

/-- Sequential semantics of the body generated by
`expand_derive_async_provider` (lines 41-47): the struct literal
`Self { field: module.resolve(), field: module.provide()?, ... }` evaluates
its field initializers left to right in declaration order, each `?` returning
the nested error unchanged and skipping all later initializers; on success the
body wraps the fields in `Ok`. The returned trace records every dependency
access in execution order. -/
def runBody (env : ModuleEnv) :
    List PropertyAssignment → List Event × Except String (List (String × SVal))
  | [] => ([], Except.ok [])
  | PropertyAssignment.resolveCall n :: rest =>
      let v := env.resolveVal n
      let r := runBody env rest
      (Event.resolved n v :: r.1, r.2.map (fun fs => (n, v) :: fs))
  | PropertyAssignment.provideCall n :: rest =>
      match env.provideVal n with
      | Except.error e => ([Event.provided n (Except.error e)], Except.error e)
      | Except.ok v =>
          let r := runBody env rest
          (Event.provided n (Except.ok v) :: r.1, r.2.map (fun fs => (n, v) :: fs))
  | PropertyAssignment.asyncProvideCall n :: rest =>
      match env.asyncProvideVal n with
      | Except.error e => ([Event.asyncProvided n (Except.error e)], Except.error e)
      | Except.ok v =>
          let r := runBody env rest
          (Event.asyncProvided n (Except.ok v) :: r.1, r.2.map (fun fs => (n, v) :: fs))

/-- A dependency access succeeds under the environment. -/
def depOk (env : ModuleEnv) : PropertyAssignment → Prop
  | PropertyAssignment.resolveCall _ => True
  | PropertyAssignment.provideCall n => ∃ v, env.provideVal n = Except.ok v
  | PropertyAssignment.asyncProvideCall n => ∃ v, env.asyncProvideVal n = Except.ok v

/-- The event a successful dependency access produces. -/
def evOf (env : ModuleEnv) : PropertyAssignment → Event
  | PropertyAssignment.resolveCall n => Event.resolved n (env.resolveVal n)
  | PropertyAssignment.provideCall n => Event.provided n (env.provideVal n)
  | PropertyAssignment.asyncProvideCall n => Event.asyncProvided n (env.asyncProvideVal n)

/-- The error a single dependency access would surface, if any: `resolve`
has none by type, `provide` and `async_provide` surface their factory error. -/
def depErrOf (env : ModuleEnv) : PropertyAssignment → Option String
  | PropertyAssignment.resolveCall _ => none
  | PropertyAssignment.provideCall n =>
      match env.provideVal n with
      | Except.error e => some e
      | Except.ok _ => none
  | PropertyAssignment.asyncProvideCall n =>
      match env.asyncProvideVal n with
      | Except.error e => some e
      | Except.ok _ => none

/-- Modelled from the spec: the Module of `shaku/src/module.rs` is not among
the given sources; per spec sections 3 and 4.1 a built module owns, per bound
component interface, a lazy instance cell (here `cells`, holding an instance
identity), the value its constructor would build (`builders`, the parameter
overlay already folded in at build time), and, per bound provider interface, a
factory outcome (`factories`: `none` means the factory constructs a fresh
instance, `some e` means it fails with error `e`). `builtCount` and
`provideCount` are observability counters for constructor and factory
invocations, and `nextId` is the source of fresh instance identities. -/
structure SModule (ι κ : Type) where
  cells : ι → Option Nat
  builders : ι → Nat
  builtCount : ι → Nat
  factories : κ → Option String
  provideCount : κ → Nat
  nextId : Nat

/-- Modelled from the spec: `resolve` (spec section 4.1) returns the instance
in the cell, or on first access invokes the component constructor exactly
once, stores the result, and returns it; it has no error path. -/
def resolveC {ι κ : Type} [DecidableEq ι] (m : SModule ι κ) (i : ι) :
    Nat × SModule ι κ :=
  match m.cells i with
  | some v => (v, m)
  | none =>
      let v := m.builders i
      (v, { m with
            cells := fun j => if j = i then some v else m.cells j,
            builtCount := fun j => if j = i then m.builtCount j + 1 else m.builtCount j })

/-- Modelled from the spec: `provide` (spec sections 3 and 4.1) re-invokes the
bound (possibly overridden) factory on every call, never memoizing; a
successful factory run constructs a fresh instance (a fresh identity from
`nextId`), a failing one surfaces its error unchanged. -/
def provideC {ι κ : Type} [DecidableEq κ] (m : SModule ι κ) (k : κ) :
    Except String Nat × SModule ι κ :=
  let m2 : SModule ι κ :=
    { m with
      provideCount := fun j => if j = k then m.provideCount j + 1 else m.provideCount j,
      nextId := m.nextId + 1 }
  match m.factories k with
  | some e => (Except.error e, m2)
  | none => (Except.ok m.nextId, m2)

/-- A resolution-surface call made on a module: used to quantify over the
calls that may happen between two observations. -/
inductive Op (ι κ : Type) where
  | resolveOp : ι → Op ι κ
  | provideOp : κ → Op ι κ

/-- The module state after one resolution-surface call. -/
def stepOp {ι κ : Type} [DecidableEq ι] [DecidableEq κ] (m : SModule ι κ) :
    Op ι κ → SModule ι κ
  | Op.resolveOp i => (resolveC m i).2
  | Op.provideOp k => (provideC m k).2

/-- The module state after a sequence of resolution-surface calls. -/
def runOps {ι κ : Type} [DecidableEq ι] [DecidableEq κ] (m : SModule ι κ) :
    List (Op ι κ) → SModule ι κ
  | [] => m
  | op :: rest => runOps (stepOp m op) rest

/-- Modelled from the spec: the ModuleBuilder of `shaku/src/module.rs` is not
among the given sources; per spec sections 3 and 4.3 it stages, per component,
an optional pre-built override instance and an optional parameter overlay, and
per provider an optional override factory, on top of the declared bindings
(`declaredBuild`, a constructor reading the parameter overlay, and
`declaredFactory`). -/
structure SBuilder (ι κ : Type) where
  declaredBuild : ι → (String → Option Nat) → Nat
  declaredFactory : κ → Option String
  componentOverride : ι → Option Nat
  paramOverlay : ι → String → Option Nat
  providerOverride : κ → Option (Option String)

/-- Modelled from the spec: `with_component_override` (spec section 4.3)
stores a pre-built instance for the interface; last write wins. -/
def with_component_override {ι κ : Type} [DecidableEq ι] (b : SBuilder ι κ)
    (i : ι) (inst : Nat) : SBuilder ι κ :=
  { b with componentOverride := fun j => if j = i then some inst else b.componentOverride j }

/-- Modelled from the spec: `with_component_parameters` (spec section 4.3)
stores a parameter overlay for the component; last write wins. -/
def with_component_parameters {ι κ : Type} [DecidableEq ι] (b : SBuilder ι κ)
    (i : ι) (ov : String → Option Nat) : SBuilder ι κ :=
  { b with paramOverlay := fun j => if j = i then ov else b.paramOverlay j }

/-- Modelled from the spec: `with_provider_override` (spec section 4.3)
replaces the provider factory entirely. -/
def with_provider_override {ι κ : Type} [DecidableEq κ] (b : SBuilder ι κ)
    (k : κ) (f : Option String) : SBuilder ι κ :=
  { b with providerOverride := fun j => if j = k then some f else b.providerOverride j }

/-- Modelled from the spec: `build` (spec sections 4.3 and 2) consumes the
builder into an immutable module: an instance override pre-seeds the cell, the
declared constructor is frozen together with the staged overlay, and an
overridden provider factory replaces the declared one. -/
def buildModule {ι κ : Type} (b : SBuilder ι κ) : SModule ι κ :=
  { cells := b.componentOverride
    builders := fun i => b.declaredBuild i (b.paramOverlay i)
    builtCount := fun _ => 0
    factories := fun k => (b.providerOverride k).getD (b.declaredFactory k)
    provideCount := fun _ => 0
    nextId := 0 }

/-- Modelled from the spec: a declared parameter property of a component
(spec section 4.4), with its name and optional static default. -/
structure ParamDecl where
  name : String
  defaultValue : Option Nat
deriving DecidableEq, Repr

/-- Modelled from the spec: a parameter property reads the overlay, else its
static default (spec sections 2 and 4.4). -/
def readParam (overlay : String → Option Nat) (p : ParamDecl) : Option Nat :=
  match overlay p.name with
  | some v => some v
  | none => p.defaultValue

/-- Modelled from the spec: a declared property of a component is either a
component dependency (resolved via `module.resolve()`) or a parameter
(spec section 4.4). -/
inductive CompProp where
  | dependency : String → CompProp
  | parameter : ParamDecl → CompProp

/-- Modelled from the spec: the value one component property receives during
construction (spec section 4.4): a dependency resolves (total), a parameter
reads the overlay else its default, and has no value only when both are
missing. -/
def buildCompProp (rv : String → Nat) (overlay : String → Option Nat) :
    CompProp → Option Nat
  | CompProp.dependency n => some (rv n)
  | CompProp.parameter p => readParam overlay p

/-- Modelled from the spec: the field values a component build produces,
failing only if some property has no value (spec section 4.4). -/
def buildComponentFields (rv : String → Nat) (overlay : String → Option Nat) :
    List CompProp → Option (List Nat)
  | [] => some []
  | p :: rest =>
      match buildCompProp rv overlay p with
      | none => none
      | some v => (buildComponentFields rv overlay rest).map (fun vs => v :: vs)

/-- Modelled from the spec: the composition-time check of one property
(spec section 4.4): a parameter must have a default or an override. -/
def validCompProp (overlay : String → Option Nat) : CompProp → Bool
  | CompProp.dependency _ => true
  | CompProp.parameter p => (readParam overlay p).isSome

/-- Modelled from the spec: composition-time validation of a component
binding (spec section 4.4): every property is checked when the binding table
is assembled, not on first use. -/
def validateComponent (overlay : String → Option Nat) (ps : List CompProp) : Bool :=
  ps.all (validCompProp overlay)

/-- Modelled from the spec: the initialization function handed to a lazy
instance cell, abstracted by whether it reentrantly touches the same cell
(spec sections 4.2 and 7): it either returns a value directly or performs a
reentrant `get_or_init` on the cell it is initializing before continuing. -/
inductive InitProg (α : Type) where
  | ret : α → InitProg α
  | touchSelf : InitProg α → InitProg α

/-- Modelled from the spec: a lazy instance cell (spec section 4.2) is empty,
being initialized, or holds its one value for the module lifetime. -/
inductive CellState (α : Type) where
  | empty : CellState α
  | initializing : CellState α
  | full : α → CellState α
deriving DecidableEq, Repr

/-- Modelled from the spec: running the initialization function while the
cell is in the `initializing` state; a reentrant touch of the same cell fails
fast (spec sections 4.2 and 7) instead of hanging or observing a half-built
value. -/
def runInit {α : Type} : InitProg α → Except String α
  | InitProg.ret v => Except.ok v
  | InitProg.touchSelf _ => Except.error "reentrant initialization"

/-- Modelled from the spec: `get_or_init` (spec section 4.2, backed by the
external once_cell crate re-exported in `shaku/src/lib.rs`): returns the
existing value, or marks the cell as initializing, runs `f`, and stores the
result; a reentrant access during initialization fails fast. -/
def get_or_init {α : Type} (c : CellState α) (f : InitProg α) :
    Except String (α × CellState α) :=
  match c with
  | CellState.full v => Except.ok (v, CellState.full v)
  | CellState.initializing => Except.error "reentrant initialization"
  | CellState.empty =>
      match runInit f with
      | Except.error e => Except.error e
      | Except.ok v => Except.ok (v, CellState.full v)

/-- A concrete module with one component and one (succeeding) provider
binding, used to instantiate the theorems. -/
def demoModule : SModule Unit Unit :=
  { cells := fun _ => none
    builders := fun _ => 7
    builtCount := fun _ => 0
    factories := fun _ => none
    provideCount := fun _ => 0
    nextId := 0 }

/-- A concrete parameter overlay: it overrides the property "today". -/
def demoOverlay : String → Option Nat :=
  fun n => if n = "today" then some 2020 else none

/-- A concrete component binding: one dependency, one parameter with no
default (covered by the overlay), one parameter with a default. -/
def demoCompProps : List CompProp :=
  [CompProp.dependency "db",
   CompProp.parameter { name := "today", defaultValue := none },
   CompProp.parameter { name := "year", defaultValue := some 1970 }]

/-- A concrete async-provider declaration with one dependency of each
accepted kind, in declaration order. -/
def demoProps : List Property :=
  [{ property_name := "db", property_type := PropertyType.Component },
   { property_name := "conn", property_type := PropertyType.Provided },
   { property_name := "auth", property_type := PropertyType.AsyncProvided }]

/-- The assignments the derive emits for `demoProps`. -/
def demoPas : List PropertyAssignment :=
  [PropertyAssignment.resolveCall "db",
   PropertyAssignment.provideCall "conn",
   PropertyAssignment.asyncProvideCall "auth"]

/-- A concrete environment in which every dependency access succeeds. -/
def demoEnv : ModuleEnv :=
  { resolveVal := fun _ => SVal.prim 0
    provideVal := fun _ => Except.ok (SVal.prim 1)
    asyncProvideVal := fun _ => Except.ok (SVal.prim 2) }

/-- A concrete environment in which the provider dependency "bad" fails
with the error "boom" and every other access succeeds. -/
def demoFailEnv : ModuleEnv :=
  { resolveVal := fun _ => SVal.prim 0
    provideVal := fun n => if n = "bad" then Except.error "boom" else Except.ok (SVal.prim 1)
    asyncProvideVal := fun _ => Except.ok (SVal.prim 2) }

/-! ### Helper lemmas about the module model -/

/-- After a first `resolve`, the cell holds exactly the returned instance. -/
theorem resolveC_cells_self {ι κ : Type} [DecidableEq ι] (m : SModule ι κ) (i : ι) :
    (resolveC m i).2.cells i = some (resolveC m i).1 := by
  cases hm : m.cells i <;> simp [resolveC, hm]

/-- `resolve` on a full cell returns the cell's instance and leaves the
module unchanged. -/
theorem resolveC_full {ι κ : Type} [DecidableEq ι] (m : SModule ι κ) (i : ι) (v : Nat)
    (h : m.cells i = some v) : resolveC m i = (v, m) := by
  simp [resolveC, h]

/-- Any single resolution-surface call preserves a full cell and its
constructor-invocation count. -/
theorem stepOp_preserve {ι κ : Type} [DecidableEq ι] [DecidableEq κ] (m : SModule ι κ)
    (i : ι) (v : Nat) (h : m.cells i = some v) (op : Op ι κ) :
    (stepOp m op).cells i = some v ∧ (stepOp m op).builtCount i = m.builtCount i := by
  cases op with
  | resolveOp j =>
      cases hj : m.cells j with
      | some w => simp [stepOp, resolveC, hj, h]
      | none =>
          have hij : ¬(i = j) := by
            intro hh
            rw [hh] at h
            rw [h] at hj
            cases hj
          simp [stepOp, resolveC, hj, h, hij]
  | provideOp k =>
      cases hk : m.factories k <;> simp [stepOp, provideC, hk, h]

/-- Any sequence of resolution-surface calls preserves a full cell and its
constructor-invocation count. -/
theorem runOps_preserve {ι κ : Type} [DecidableEq ι] [DecidableEq κ] (m : SModule ι κ)
    (i : ι) (v : Nat) (c : Nat) (ops : List (Op ι κ))
    (h : m.cells i = some v) (hc : m.builtCount i = c) :
    (runOps m ops).cells i = some v ∧ (runOps m ops).builtCount i = c := by
  induction ops generalizing m with
  | nil => exact ⟨h, hc⟩
  | cons op rest ih =>
      have hs := stepOp_preserve m i v h op
      exact ih (stepOp m op) hs.1 (by rw [hs.2]; exact hc)

/-- Every component build succeeds once the composition-time validation of
its parameters has passed. -/
theorem buildFields_total (rv : String → Nat) (overlay : String → Option Nat) :
    ∀ ps : List CompProp, validateComponent overlay ps = true →
      ∃ fields, buildComponentFields rv overlay ps = some fields := by
  intro ps
  induction ps with
  | nil => intro _; exact ⟨[], rfl⟩
  | cons p rest ih =>
      intro h
      rw [validateComponent, List.all_cons, Bool.and_eq_true] at h
      obtain ⟨fs, hfs⟩ := ih h.2
      cases p with
      | dependency n =>
          exact ⟨rv n :: fs, by simp [buildComponentFields, buildCompProp, hfs]⟩
      | parameter pd =>
          have h1 := h.1
          simp only [validCompProp] at h1
          obtain ⟨v, hv⟩ := Option.isSome_iff_exists.mp h1
          exact ⟨v :: fs, by simp [buildComponentFields, buildCompProp, hv, hfs]⟩

/-! ### Claims about the module, builder and cell -/

/-- C1 (counterexample): the claim that a provider declaration with a
parameter property is accepted is false — the `AsyncProvider` derive rejects
it with the error "Parameters are not allowed in Providers". -/
theorem provider_parameter_rejected :
    expand_derive_async_provider
        [{ property_name := "today", property_type := PropertyType.Parameter }]
      = Except.error "Parameters are not allowed in Providers" := rfl

/-- C1 (amended): a provider property is accepted by the derive exactly when
it is not a parameter property: component-dependency, provider-dependency and
async-provider-dependency properties are supported, parameters are not. -/
theorem provider_property_kinds (p : Property) :
    (∃ a, create_property_assignment p = Except.ok a) ↔
      p.property_type ≠ PropertyType.Parameter := by
  cases hp : p.property_type <;> simp [create_property_assignment, hp]

/-- C2: two `resolve` calls for the same interface return the identical
instance, regardless of the resolve/provide calls made in between. -/
theorem resolve_identity {ι κ : Type} [DecidableEq ι] [DecidableEq κ]
    (m : SModule ι κ) (i : ι) (ops : List (Op ι κ)) :
    (resolveC (runOps (resolveC m i).2 ops) i).1 = (resolveC m i).1 := by
  have h1 := resolveC_cells_self m i
  have h2 := runOps_preserve (resolveC m i).2 i (resolveC m i).1
    ((resolveC m i).2.builtCount i) ops h1 rfl
  rw [resolveC_full (runOps (resolveC m i).2 ops) i (resolveC m i).1 h2.1]

/-- C3: each `provide` call re-invokes the bound factory (the invocation
count rises by one per call, never memoized), and two successful calls
return two distinct, independently constructed instances. -/
theorem provide_fresh {ι κ : Type} [DecidableEq κ] (m : SModule ι κ) (k : κ)
    (h : m.factories k = none) :
    ∃ v1 v2,
      (provideC m k).1 = Except.ok v1 ∧
      (provideC (provideC m k).2 k).1 = Except.ok v2 ∧
      v1 ≠ v2 ∧
      (provideC (provideC m k).2 k).2.provideCount k = m.provideCount k + 2 := by
  refine ⟨m.nextId, m.nextId + 1, ?_, ?_, by omega, ?_⟩ <;> simp [provideC, h]

/-- C3 (witness): instantiated on the concrete demo module. -/
theorem provide_fresh_witness :
    demoModule.factories () = none ∧
    ∃ v1 v2,
      (provideC demoModule ()).1 = Except.ok v1 ∧
      (provideC (provideC demoModule ()).2 ()).1 = Except.ok v2 ∧
      v1 ≠ v2 ∧
      (provideC (provideC demoModule ()).2 ()).2.provideCount ()
        = demoModule.provideCount () + 2 :=
  ⟨rfl, provide_fresh demoModule () rfl⟩

/-- C5: resolution never fails at runtime — once the composition-time
validation of a component binding passes, its build function always produces
field values (dependencies are total, parameters fall back to overlay or
default), and the code the derive emits for a component dependency is a bare
`module.resolve()` with no error path. -/
theorem resolve_never_fails (rv : String → Nat) (overlay : String → Option Nat)
    (ps : List CompProp) (h : validateComponent overlay ps = true) :
    (∃ fields, buildComponentFields rv overlay ps = some fields) ∧
    ∀ pr : Property, pr.property_type = PropertyType.Component →
      create_property_assignment pr
        = Except.ok (PropertyAssignment.resolveCall pr.property_name) := by
  refine ⟨buildFields_total rv overlay ps h, ?_⟩
  intro pr hpr
  simp [create_property_assignment, hpr]

/-- C5 (witness): instantiated on the concrete demo component binding. -/
theorem resolve_never_fails_witness :
    validateComponent demoOverlay demoCompProps = true ∧
    ((∃ fields, buildComponentFields (fun _ => 7) demoOverlay demoCompProps = some fields) ∧
     ∀ pr : Property, pr.property_type = PropertyType.Component →
       create_property_assignment pr
         = Except.ok (PropertyAssignment.resolveCall pr.property_name)) :=
  ⟨by decide, resolve_never_fails (fun _ => 7) demoOverlay demoCompProps (by decide)⟩

/-- C8: an initialization function that reentrantly touches its own cell
fails fast with an error (the access returns immediately, the model is a
total function, and no half-built value is ever stored or returned), while
the cell blocked mid-initialization rejects any access and a non-reentrant
initializer fills the cell normally. -/
theorem cell_reentrancy_fails_fast (α : Type) :
    (∀ g : InitProg α,
      get_or_init CellState.empty (InitProg.touchSelf g)
        = Except.error "reentrant initialization") ∧
    (∀ f : InitProg α,
      get_or_init CellState.initializing f
        = Except.error "reentrant initialization") ∧
    (∀ v : α,
      get_or_init CellState.empty (InitProg.ret v)
        = Except.ok (v, CellState.full v)) :=
  ⟨fun _ => rfl, fun _ => rfl, fun _ => rfl⟩

/-- C9: after `with_component_override`, every `resolve` for that interface —
under any sequence of intervening calls — returns exactly the supplied
instance, the declared constructor is never invoked (its invocation count
stays zero), and any parameter overlay staged for the same component is
ignored (the result is the same for every overlay `ov`). -/
theorem component_override_wins {ι κ : Type} [DecidableEq ι] [DecidableEq κ]
    (b : SBuilder ι κ) (i : ι) (inst : Nat) (ov : String → Option Nat)
    (ops : List (Op ι κ)) :
    (resolveC (runOps (buildModule
        (with_component_parameters (with_component_override b i inst) i ov)) ops) i).1
      = inst ∧
    (resolveC (runOps (buildModule
        (with_component_parameters (with_component_override b i inst) i ov)) ops) i).2.builtCount i
      = 0 := by
  have hcell : (buildModule
      (with_component_parameters (with_component_override b i inst) i ov)).cells i
      = some inst := by
    simp [buildModule, with_component_parameters, with_component_override]
  have hcount : (buildModule
      (with_component_parameters (with_component_override b i inst) i ov)).builtCount i
      = 0 := rfl
  have h2 := runOps_preserve _ i inst 0 ops hcell hcount
  rw [resolveC_full _ i inst h2.1]
  exact ⟨rfl, h2.2⟩

/-! ### Helper lemmas about the generated provider body -/

/-- A successful property assignment keeps the property's name. -/
theorem create_assignment_name (p : Property) (a : PropertyAssignment)
    (h : create_property_assignment p = Except.ok a) : paName a = p.property_name := by
  cases hp : p.property_type <;> simp [create_property_assignment, hp] at h <;>
    subst h <;> rfl

/-- The derive emits one assignment per property, in declaration order. -/
theorem expand_names (props : List Property) (pas : List PropertyAssignment)
    (h : expand_derive_async_provider props = Except.ok pas) :
    pas.map paName = props.map Property.property_name := by
  induction props generalizing pas with
  | nil =>
      simp only [expand_derive_async_provider] at h
      injection h with h2
      subst h2
      rfl
  | cons p rest ih =>
      simp only [expand_derive_async_provider] at h
      cases hc : create_property_assignment p with
      | error e => rw [hc] at h; cases h
      | ok a =>
          rw [hc] at h
          cases hr : expand_derive_async_provider rest with
          | error e => rw [hr] at h; cases h
          | ok as1 =>
              rw [hr] at h
              injection h with h2
              subst h2
              simp [List.map_cons, create_assignment_name p a hc, ih as1 hr]

/-- The body touches dependencies in declaration order: its trace is an
initial segment of the declared assignment list. -/
theorem runBody_names_order (env : ModuleEnv) :
    ∀ pas : List PropertyAssignment,
      ∃ t, (runBody env pas).1.map eventName ++ t = pas.map paName := by
  intro pas
  induction pas with
  | nil => exact ⟨[], rfl⟩
  | cons pa rest ih =>
      obtain ⟨t, ht⟩ := ih
      cases pa with
      | resolveCall n =>
          exact ⟨t, by simp only [runBody, List.map_cons, List.cons_append, eventName,
            paName, ht]⟩
      | provideCall n =>
          cases hv : env.provideVal n with
          | error e =>
              exact ⟨rest.map paName, by simp [runBody, hv, eventName, paName]⟩
          | ok v =>
              exact ⟨t, by simp only [runBody, hv, List.map_cons, List.cons_append,
                eventName, paName, ht]⟩
      | asyncProvideCall n =>
          cases hv : env.asyncProvideVal n with
          | error e =>
              exact ⟨rest.map paName, by simp [runBody, hv, eventName, paName]⟩
          | ok v =>
              exact ⟨t, by simp only [runBody, hv, List.map_cons, List.cons_append,
                eventName, paName, ht]⟩

/-- When the body succeeds, it touched every declared dependency, in
declaration order. -/
theorem runBody_ok_names (env : ModuleEnv) :
    ∀ (pas : List PropertyAssignment) (fs : List (String × SVal)),
      (runBody env pas).2 = Except.ok fs →
      (runBody env pas).1.map eventName = pas.map paName := by
  intro pas
  induction pas with
  | nil => intro fs _; rfl
  | cons pa rest ih =>
      intro fs h
      cases pa with
      | resolveCall n =>
          simp only [runBody] at h ⊢
          cases hr : (runBody env rest).2 with
          | error e => rw [hr] at h; simp [Except.map] at h
          | ok fs2 =>
              simp [List.map_cons, eventName, paName, ih fs2 hr]
      | provideCall n =>
          cases hv : env.provideVal n with
          | error e => simp only [runBody, hv] at h; simp at h
          | ok v =>
              simp only [runBody, hv] at h ⊢
              cases hr : (runBody env rest).2 with
              | error e => rw [hr] at h; simp [Except.map] at h
              | ok fs2 =>
                  simp [List.map_cons, eventName, paName, ih fs2 hr]
      | asyncProvideCall n =>
          cases hv : env.asyncProvideVal n with
          | error e => simp only [runBody, hv] at h; simp at h
          | ok v =>
              simp only [runBody, hv] at h ⊢
              cases hr : (runBody env rest).2 with
              | error e => rw [hr] at h; simp [Except.map] at h
              | ok fs2 =>
                  simp [List.map_cons, eventName, paName, ih fs2 hr]

/-- If every dependency before a failing one succeeds, the body stops at the
failing dependency: it returns that error unchanged and its trace shows each
earlier dependency accessed exactly once, the failing one exactly once, and
nothing after it. -/
theorem runBody_first_error (env : ModuleEnv) :
    ∀ (pas1 : List PropertyAssignment) (paf : PropertyAssignment)
      (pas2 : List PropertyAssignment) (e : String),
      (∀ pa ∈ pas1, depOk env pa) → depErrOf env paf = some e →
      runBody env (pas1 ++ paf :: pas2)
        = (pas1.map (evOf env) ++ [evOf env paf], Except.error e) := by
  intro pas1
  induction pas1 with
  | nil =>
      intro paf pas2 e _ hf
      cases paf with
      | resolveCall n => simp [depErrOf] at hf
      | provideCall n =>
          cases hv : env.provideVal n with
          | error e2 =>
              simp only [depErrOf, hv] at hf
              injection hf with hf2
              subst hf2
              simp [runBody, hv, evOf]
          | ok v => simp [depErrOf, hv] at hf
      | asyncProvideCall n =>
          cases hv : env.asyncProvideVal n with
          | error e2 =>
              simp only [depErrOf, hv] at hf
              injection hf with hf2
              subst hf2
              simp [runBody, hv, evOf]
          | ok v => simp [depErrOf, hv] at hf
  | cons pa rest ih =>
      intro paf pas2 e hall hf
      have hpa := hall pa (List.mem_cons_self pa rest)
      have hrest : ∀ x ∈ rest, depOk env x := fun x hx => hall x (List.mem_cons_of_mem pa hx)
      have ihr := ih paf pas2 e hrest hf
      cases pa with
      | resolveCall n =>
          simp [runBody, ihr, evOf, Except.map]
      | provideCall n =>
          simp only [depOk] at hpa
          obtain ⟨v, hv⟩ := hpa
          simp [runBody, hv, ihr, evOf, Except.map]
      | asyncProvideCall n =>
          simp only [depOk] at hpa
          obtain ⟨v, hv⟩ := hpa
          simp [runBody, hv, ihr, evOf, Except.map]

/-- When every dependency succeeds the body succeeds. -/
theorem runBody_all_ok (env : ModuleEnv) :
    ∀ pas : List PropertyAssignment, (∀ pa ∈ pas, depOk env pa) →
      ∃ fs, (runBody env pas).2 = Except.ok fs := by
  intro pas
  induction pas with
  | nil => intro _; exact ⟨[], rfl⟩
  | cons pa rest ih =>
      intro hall
      have hpa := hall pa (List.mem_cons_self pa rest)
      have hrest : ∀ x ∈ rest, depOk env x := fun x hx => hall x (List.mem_cons_of_mem pa hx)
      obtain ⟨fs, hfs⟩ := ih hrest
      cases pa with
      | resolveCall n =>
          exact ⟨(n, env.resolveVal n) :: fs, by simp [runBody, hfs, Except.map]⟩
      | provideCall n =>
          simp only [depOk] at hpa
          obtain ⟨v, hv⟩ := hpa
          exact ⟨(n, v) :: fs, by simp [runBody, hv, hfs, Except.map]⟩
      | asyncProvideCall n =>
          simp only [depOk] at hpa
          obtain ⟨v, hv⟩ := hpa
          exact ⟨(n, v) :: fs, by simp [runBody, hv, hfs, Except.map]⟩

/-- Any error the body returns is the error of one of its provider or
async-provider dependencies, unchanged; component dependencies never
contribute one. -/
theorem runBody_error_source (env : ModuleEnv) :
    ∀ (pas : List PropertyAssignment) (e : String),
      (runBody env pas).2 = Except.error e →
      (∃ n, PropertyAssignment.provideCall n ∈ pas ∧ env.provideVal n = Except.error e) ∨
      (∃ n, PropertyAssignment.asyncProvideCall n ∈ pas ∧
        env.asyncProvideVal n = Except.error e) := by
  intro pas
  induction pas with
  | nil => intro e h; simp [runBody] at h
  | cons pa rest ih =>
      intro e h
      cases pa with
      | resolveCall n =>
          simp only [runBody] at h
          cases hr : (runBody env rest).2 with
          | error e2 =>
              rw [hr] at h
              simp [Except.map] at h
              subst h
              rcases ih e2 hr with ⟨n2, hmem, hval⟩ | ⟨n2, hmem, hval⟩
              · exact Or.inl ⟨n2, List.mem_cons_of_mem _ hmem, hval⟩
              · exact Or.inr ⟨n2, List.mem_cons_of_mem _ hmem, hval⟩
          | ok fs => rw [hr] at h; simp [Except.map] at h
      | provideCall n =>
          cases hv : env.provideVal n with
          | error e2 =>
              simp only [runBody, hv] at h
              injection h with h2
              subst h2
              exact Or.inl ⟨n, List.mem_cons_self _ _, hv⟩
          | ok v =>
              simp only [runBody, hv] at h
              cases hr : (runBody env rest).2 with
              | error e2 =>
                  rw [hr] at h
                  simp [Except.map] at h
                  subst h
                  rcases ih e2 hr with ⟨n2, hmem, hval⟩ | ⟨n2, hmem, hval⟩
                  · exact Or.inl ⟨n2, List.mem_cons_of_mem _ hmem, hval⟩
                  · exact Or.inr ⟨n2, List.mem_cons_of_mem _ hmem, hval⟩
              | ok fs => rw [hr] at h; simp [Except.map] at h
      | asyncProvideCall n =>
          cases hv : env.asyncProvideVal n with
          | error e2 =>
              simp only [runBody, hv] at h
              injection h with h2
              subst h2
              exact Or.inr ⟨n, List.mem_cons_self _ _, hv⟩
          | ok v =>
              simp only [runBody, hv] at h
              cases hr : (runBody env rest).2 with
              | error e2 =>
                  rw [hr] at h
                  simp [Except.map] at h
                  subst h
                  rcases ih e2 hr with ⟨n2, hmem, hval⟩ | ⟨n2, hmem, hval⟩
                  · exact Or.inl ⟨n2, List.mem_cons_of_mem _ hmem, hval⟩
                  · exact Or.inr ⟨n2, List.mem_cons_of_mem _ hmem, hval⟩
              | ok fs => rw [hr] at h; simp [Except.map] at h

/-! ### Claims about the generated provider body -/

/-- C6: a failing nested factory makes `provide`/`async_provide` return
exactly that error value unchanged and never retried: (1) a generated body
whose earlier dependencies succeed returns the first failing dependency's
error as-is, its trace invoking each dependency up to and including the
failing one exactly once and nothing afterwards; (2) when the failing
dependency is itself a generated provider, the inner error crosses the
nesting boundary unchanged; (3) at the module surface, a failing factory's
error is returned as-is. -/
theorem provider_error_propagation :
    (∀ (env : ModuleEnv) (pas1 : List PropertyAssignment) (paf : PropertyAssignment)
        (pas2 : List PropertyAssignment) (e : String),
        (∀ pa ∈ pas1, depOk env pa) → depErrOf env paf = some e →
        (runBody env (pas1 ++ paf :: pas2)).2 = Except.error e ∧
        (runBody env (pas1 ++ paf :: pas2)).1
          = pas1.map (evOf env) ++ [evOf env paf]) ∧
    (∀ (envO envI : ModuleEnv) (pasI pasO1 pasO2 : List PropertyAssignment)
        (n : String) (e : String),
        (∀ pa ∈ pasO1, depOk envO pa) →
        envO.provideVal n = (runBody envI pasI).2.map (fun fs => SVal.inst fs) →
        (runBody envI pasI).2 = Except.error e →
        (runBody envO (pasO1 ++ PropertyAssignment.provideCall n :: pasO2)).2
          = Except.error e) ∧
    (∀ (ι κ : Type) [DecidableEq κ] (m : SModule ι κ) (k : κ) (e : String),
        m.factories k = some e → (provideC m k).1 = Except.error e) := by
  refine ⟨?_, ?_, ?_⟩
  · intro env pas1 paf pas2 e hall hf
    rw [runBody_first_error env pas1 paf pas2 e hall hf]
    exact ⟨rfl, rfl⟩
  · intro envO envI pasI pasO1 pasO2 n e hall hnest hinner
    have hv : envO.provideVal n = Except.error e := by
      rw [hnest, hinner]
      rfl
    have hf : depErrOf envO (PropertyAssignment.provideCall n) = some e := by
      simp [depErrOf, hv]
    rw [runBody_first_error envO pasO1 (PropertyAssignment.provideCall n) pasO2 e hall hf]
  · intro ι κ inst m k e h
    simp [provideC, h]

/-- C6 (witness): instantiated in the concrete failing environment, with one
succeeding dependency before the failing one. -/
theorem provider_error_propagation_witness :
    (runBody demoFailEnv
        [PropertyAssignment.resolveCall "a", PropertyAssignment.provideCall "bad"]).2
      = Except.error "boom" ∧
    (runBody demoFailEnv
        [PropertyAssignment.resolveCall "a", PropertyAssignment.provideCall "bad"]).1
      = [PropertyAssignment.resolveCall "a"].map (evOf demoFailEnv)
        ++ [evOf demoFailEnv (PropertyAssignment.provideCall "bad")] :=
  provider_error_propagation.1 demoFailEnv [PropertyAssignment.resolveCall "a"]
    (PropertyAssignment.provideCall "bad") [] "boom"
    (by
      intro pa hpa
      rw [List.mem_singleton] at hpa
      subst hpa
      simp [depOk])
    (by simp [depErrOf, demoFailEnv])

/-- C7: the generated `async_provide` body awaits its dependencies strictly
in declaration order: the derive emits one assignment per declared property
in order, the body's sequential trace is an initial segment of that order
(each access completing before the next starts, an error stopping the rest),
and a successful run touches exactly the declared properties in declaration
order. -/
theorem async_provide_declaration_order (props : List Property)
    (pas : List PropertyAssignment) (env : ModuleEnv)
    (h : expand_derive_async_provider props = Except.ok pas) :
    pas.map paName = props.map Property.property_name ∧
    (∃ t, (runBody env pas).1.map eventName ++ t = pas.map paName) ∧
    ((∃ fs, (runBody env pas).2 = Except.ok fs) →
      (runBody env pas).1.map eventName = props.map Property.property_name) := by
  have hn := expand_names props pas h
  refine ⟨hn, runBody_names_order env pas, ?_⟩
  intro hok
  obtain ⟨fs, hfs⟩ := hok
  rw [runBody_ok_names env pas fs hfs, hn]

/-- C7 (witness): instantiated on the concrete demo provider declaration and
all-succeeding environment. -/
theorem async_provide_declaration_order_witness :
    expand_derive_async_provider demoProps = Except.ok demoPas ∧
    (demoPas.map paName = demoProps.map Property.property_name ∧
     (∃ t, (runBody demoEnv demoPas).1.map eventName ++ t = demoPas.map paName) ∧
     ((∃ fs, (runBody demoEnv demoPas).2 = Except.ok fs) →
       (runBody demoEnv demoPas).1.map eventName
         = demoProps.map Property.property_name)) :=
  ⟨rfl, async_provide_declaration_order demoProps demoPas demoEnv rfl⟩

/-- C10: the body the `AsyncProvider` derive generates never produces an
error of its own: when every provider and async-provider dependency
succeeds, it returns `Ok` with the freshly built fields, and any error it
returns is exactly the error of one of its `module.provide()` or
`module.async_provide()` calls — a component dependency obtained via
`module.resolve()` can never contribute one. -/
theorem async_provide_error_sources (props : List Property)
    (pas : List PropertyAssignment) (env : ModuleEnv)
    (_h : expand_derive_async_provider props = Except.ok pas) :
    ((∀ pa ∈ pas, depOk env pa) → ∃ fs, (runBody env pas).2 = Except.ok fs) ∧
    (∀ e, (runBody env pas).2 = Except.error e →
      (∃ n, PropertyAssignment.provideCall n ∈ pas ∧ env.provideVal n = Except.error e) ∨
      (∃ n, PropertyAssignment.asyncProvideCall n ∈ pas ∧
        env.asyncProvideVal n = Except.error e)) :=
  ⟨runBody_all_ok env pas, runBody_error_source env pas⟩

/-- C10 (witness): instantiated on the concrete demo provider declaration
and all-succeeding environment. -/
theorem async_provide_error_sources_witness :
    expand_derive_async_provider demoProps = Except.ok demoPas ∧
    (((∀ pa ∈ demoPas, depOk demoEnv pa) →
        ∃ fs, (runBody demoEnv demoPas).2 = Except.ok fs) ∧
     (∀ e, (runBody demoEnv demoPas).2 = Except.error e →
       (∃ n, PropertyAssignment.provideCall n ∈ demoPas ∧
         demoEnv.provideVal n = Except.error e) ∨
       (∃ n, PropertyAssignment.asyncProvideCall n ∈ demoPas ∧
         demoEnv.asyncProvideVal n = Except.error e))) :=
  ⟨rfl, async_provide_error_sources demoProps demoPas demoEnv rfl⟩

end Shaku
